import Mathlib

/-!
Shallow embedding of `glitchtop.py`, a curses system monitor with a
"glitch" text-corruption effect.  Pure fragments of the source become Lean
functions; the random number generator is modelled as an explicit stream
`g : Nat → Nat` consumed draw by draw (draw `k` yields `g k`); curses
screen writes become the list of strings the code would draw; Python
exceptions become `Option`/sum results.
-/

namespace Glitchtop

/-- `GLITCH_CHARS` from the source (line 10). -/
def GLITCH_CHARS : List Char :=
  "!@#$%^&*()_+=-[]\x7b\x7d;:,.<>?ABCDEFGHIJKLMNOPQRSTUVWXYZ0123456789".toList

/-- `TOP_N_PROCS = 25` (line 12). -/
def TOP_N_PROCS : Nat := 25

/-- `MAX_LOG_LINES = 4` (line 14). -/
def MAX_LOG_LINES : Nat := 4

/-- `MIN_WAIT = 3` (line 17), in seconds. -/
def MIN_WAIT : ℚ := 3

/-- `MAX_WAIT = 8` (line 18), in seconds. -/
def MAX_WAIT : ℚ := 8

/-- `MIN_GLITCH_CHARS = 1` (line 19). -/
def MIN_GLITCH_CHARS : Nat := 1

/-- `MAX_GLITCH_CHARS = 6` (line 20). -/
def MAX_GLITCH_CHARS : Nat := 6

/-- `MIN_FRAMES = 3` (line 21). -/
def MIN_FRAMES : Nat := 3

/-- `MAX_FRAMES = 6` (line 22). -/
def MAX_FRAMES : Nat := 6

/-- Python `f"{n:02d}"` for a nonnegative integer: zero-pad to width 2. -/
def pad2 (n : Nat) : String :=
  if n < 10 then "0" ++ toString n else toString n

/-- `format_time` (lines 38-41): `divmod(seconds, 60)` twice, then
`f"{h:02d}:{m:02d}:{s:02d}"`. -/
def format_time (seconds : Nat) : String :=
  let m := seconds / 60
  let s := seconds % 60
  let h := m / 60
  let m2 := m % 60
  pad2 h ++ ":" ++ pad2 m2 ++ ":" ++ pad2 s

/-- `get_system_status` (lines 46-54): if/elif chain over cpu and mem
percentages. -/
def get_system_status (cpu mem : ℚ) : String :=
  if cpu ≥ 80 ∨ mem ≥ 85 then "CRITICAL"
  else if cpu ≥ 60 ∨ mem ≥ 70 then "DEGRADED"
  else if cpu ≥ 40 ∨ mem ≥ 60 then "MONITORING"
  else "NOMINAL"

/-- Python `random.randint(lo, hi)` (inclusive bounds) on the draw at
position `k` of the stream. -/
def randint (g : Nat → Nat) (k lo hi : Nat) : Nat :=
  lo + g k % (hi + 1 - lo)

/-- Python `random.randrange(n)`: raises `ValueError` (here `none`) on an
empty range. -/
def randrange (g : Nat → Nat) (k n : Nat) : Option Nat :=
  if n = 0 then none else some (g k % n)

/-- Python `random.choice(cs)` for the nonempty glitch charset. -/
def choice (g : Nat → Nat) (k : Nat) (cs : List Char) : Char :=
  cs.getD (g k % cs.length) ' '

/-- The inner replacement loop of `glitch_line` (lines 63-65): perform `n`
character replacements on the buffer `cs`, each consuming a `randrange`
draw for the position and a `choice` draw for the replacement character.
Returns the corrupted buffer and the next stream position, or `none` when
`randrange` is called on an empty buffer. -/
def corrupt (g : Nat → Nat) : Nat → Nat → List Char → Option (List Char × Nat)
  | 0, k, cs => some (cs, k)
  | n + 1, k, cs =>
    match randrange g k cs.length with
    | none => none
    | some pos => corrupt g n (k + 2) (cs.set pos (choice g (k + 1) GLITCH_CHARS))

/-- Python `str.ljust`: pad on the right with spaces to length `n`. -/
def ljust (cs : List Char) (n : Nat) : List Char :=
  cs ++ List.replicate (n - cs.length) ' '

/-- The frame loop of `glitch_line` (lines 61-68): draw `n` frames, each
rebuilt from the original `text`, corrupted by `randint(minChars, maxChars)`
replacements, and written out left-justified to the original length.
Returns the frames written to the screen and the next stream position. -/
def glitchFrames (g : Nat → Nat) (text : List Char) (minChars maxChars : Nat) :
    Nat → Nat → Option (List (List Char) × Nat)
  | 0, k => some ([], k)
  | n + 1, k =>
    match corrupt g (randint g k minChars maxChars) (k + 1) text with
    | none => none
    | some (cs, k2) =>
      match glitchFrames g text minChars maxChars n k2 with
      | none => none
      | some (fs, k3) => some (ljust cs text.length :: fs, k3)

/-- `glitch_line` (lines 56-68) as a function from the text and the random
stream to the list of frames drawn on the screen; `none` models the
`ValueError` raised by `randrange` on empty text.  The frame count is
`randint(min_frames, max_frames)`, drawn first. -/
def glitch_line (text : List Char) (g : Nat → Nat)
    (minChars maxChars minFrames maxFrames : Nat) : Option (List (List Char)) :=
  match glitchFrames g text minChars maxChars (randint g 0 minFrames maxFrames) 1 with
  | none => none
  | some (fs, _) => some fs

/-- The per-tick glitch scheduling check of the source (lines 137-139):
given the stored `last_status_glitch_time`, the current time `now` and the
tick's fresh `random.uniform(MIN_WAIT, MAX_WAIT)` draw, decide whether the
glitch fires and produce the updated stored time. -/
def codeGlitchTick (last now draw : ℚ) : Bool × ℚ :=
  if now - last > draw then (true, now) else (false, last)

/-- Iterate `codeGlitchTick` over a list of (time, fresh uniform draw)
pairs, returning the per-tick fire decisions and the final stored time. -/
def codeGlitchRun : ℚ → List (ℚ × ℚ) → List Bool × ℚ
  | last, [] => ([], last)
  | last, (now, d) :: rest =>
    ((codeGlitchTick last now d).1 :: (codeGlitchRun (codeGlitchTick last now d).2 rest).1,
     (codeGlitchRun (codeGlitchTick last now d).2 rest).2)

/-- The GlitchSchedule tick as the spec describes it, for comparison with
`codeGlitchTick`: the state also stores a `next_wait` that is redrawn only
when a glitch fires (the tick's uniform draw is consumed only then); firing
compares elapsed time against the stored `next_wait`. -/
def specGlitchTick (st : ℚ × ℚ) (now draw : ℚ) : Bool × (ℚ × ℚ) :=
  if now - st.1 > st.2 then (true, (now, draw)) else (false, st)

/-- Iterate `specGlitchTick` over the same (time, draw) inputs as
`codeGlitchRun`. -/
def specGlitchRun : (ℚ × ℚ) → List (ℚ × ℚ) → List Bool × (ℚ × ℚ)
  | st, [] => ([], st)
  | st, (now, d) :: rest =>
    ((specGlitchTick st now d).1 :: (specGlitchRun (specGlitchTick st now d).2 rest).1,
     (specGlitchRun (specGlitchTick st now d).2 rest).2)

/-- The per-tick log mutation (lines 210-212): append the new message,
then `pop(0)` once if the length exceeds `MAX_LOG_LINES`. -/
def logUpdate (log : List String) (msg : String) : List String :=
  let l2 := log ++ [msg]
  if MAX_LOG_LINES < l2.length then l2.drop 1 else l2

/-- The log block drawn on this tick (lines 213-214): the loop draws
`log_lines` after the append and eviction of lines 210-212, so the
rendered block is exactly the updated buffer. -/
def renderedLog (log : List String) (msg : String) : List String :=
  logUpdate log msg

/-- Transient psutil errors caught by the per-process `except` clause
(line 179). -/
inductive PsutilErr
  | noSuchProcess
  | accessDenied
deriving DecidableEq

/-- The fields read from `psutil.process_iter` for one process
(line 167). -/
structure RawProc where
  pid : Int
  name : List Char
  username : Option (List Char)
  cpu_percent : ℚ
  memory_percent : ℚ
  cpu_times_user : ℚ
  cpu_times_system : ℚ
deriving DecidableEq

/-- One row of the process table as built at lines 171-178. -/
structure ProcEntry where
  pid : Int
  user : List Char
  cpu : ℚ
  mem : ℚ
  time : String
  name : List Char
deriving DecidableEq

/-- The dict built for one process (lines 171-178): `username[:8]` when the
username is truthy and `?` otherwise, `name[:20]`, and the formatted
user+system cpu time. -/
def mkEntry (p : RawProc) : ProcEntry :=
  { pid := p.pid
    user := match p.username with
      | none => ['?']
      | some u => if u = [] then ['?'] else u.take 8
    cpu := p.cpu_percent
    mem := p.memory_percent
    time := format_time (Int.toNat (p.cpu_times_user + p.cpu_times_system).floor)
    name := p.name.take 20 }

/-- The enumeration loop of lines 166-180: each enumerated process either
yields its fields or raises a transient psutil error; the `except` clause
drops the failing entry with `continue` and the loop goes on. -/
def buildProcesses (items : List (Except PsutilErr RawProc)) : List ProcEntry :=
  items.filterMap fun it =>
    match it with
    | .error _ => none
    | .ok p => some (mkEntry p)

/-- Stable insertion for descending cpu order: walk past entries with
strictly larger cpu and stop before the first entry whose cpu does not
exceed `p`'s, so earlier-enumerated entries stay ahead of equal-cpu later
ones. -/
def insertDesc (p : ProcEntry) : List ProcEntry → List ProcEntry
  | [] => [p]
  | q :: qs => if p.cpu < q.cpu then q :: insertDesc p qs else p :: q :: qs

/-- `processes.sort(key=lambda x: x['cpu'], reverse=True)` (line 181):
Python's sort is the stable descending sort by the cpu key, embedded here
as stable insertion sort (the stable descending sort is unique as a
function of the input list). -/
def sortProcs (l : List ProcEntry) : List ProcEntry :=
  l.foldr insertDesc []

/-- The rows actually rendered (line 187): `processes[:TOP_N_PROCS]` after
the sort. -/
def displayProcs (l : List ProcEntry) : List ProcEntry :=
  (sortProcs l).take TOP_N_PROCS

/-- A four-process snapshot with cpu percentages 10, 90, 50, 90 in
enumeration order, distinguished by pid. -/
def exampleProcs : List ProcEntry :=
  [{ pid := 1, user := [], cpu := 10, mem := 0, time := "", name := [] },
   { pid := 2, user := [], cpu := 90, mem := 0, time := "", name := [] },
   { pid := 3, user := [], cpu := 50, mem := 0, time := "", name := [] },
   { pid := 4, user := [], cpu := 90, mem := 0, time := "", name := [] }]

/-- A concrete enumerated process with no username. -/
def rawNoUser : RawProc :=
  { pid := 1, name := "python".toList, username := none,
    cpu_percent := 1, memory_percent := 2,
    cpu_times_user := 0, cpu_times_system := 0 }

/-- A concrete enumerated process with a long username and long name. -/
def rawLongUser : RawProc :=
  { pid := 2, name := "aVeryLongProcessCommandName".toList,
    username := some "longusername".toList,
    cpu_percent := 3, memory_percent := 4,
    cpu_times_user := 1, cpu_times_system := 2 }

/-! ## Helper lemmas -/

lemma logUpdate_length_le (log : List String) (msg : String)
    (h : log.length ≤ MAX_LOG_LINES) :
    (logUpdate log msg).length ≤ MAX_LOG_LINES := by
  simp only [logUpdate, MAX_LOG_LINES] at h ⊢
  split
  · simp only [List.length_drop, List.length_append, List.length_cons, List.length_nil]
    omega
  · rename_i hle
    simp only [not_lt, List.length_append, List.length_cons, List.length_nil] at hle
    simp only [List.length_append, List.length_cons, List.length_nil]
    omega

lemma foldl_logUpdate_length_le (msgs : List String) :
    ∀ log : List String, log.length ≤ MAX_LOG_LINES →
      (msgs.foldl logUpdate log).length ≤ MAX_LOG_LINES := by
  induction msgs with
  | nil => intro log h; simpa using h
  | cons m ms ih =>
    intro log h
    simpa using ih _ (logUpdate_length_le log m h)

/-! ## Theorems about the claims -/

/-- C3: `get_system_status` is a pure total function returning CRITICAL
when cpu ≥ 80 or mem ≥ 85, else DEGRADED when cpu ≥ 60 or mem ≥ 70, else
MONITORING when cpu ≥ 40 or mem ≥ 60, else NOMINAL, with first-match-wins
rule order, inclusive lower bounds, and the spec's four example pairs. -/
theorem c3_status_evaluation :
    (∀ cpu mem : ℚ, (cpu ≥ 80 ∨ mem ≥ 85) → get_system_status cpu mem = "CRITICAL") ∧
    (∀ cpu mem : ℚ, ¬(cpu ≥ 80 ∨ mem ≥ 85) → (cpu ≥ 60 ∨ mem ≥ 70) →
      get_system_status cpu mem = "DEGRADED") ∧
    (∀ cpu mem : ℚ, ¬(cpu ≥ 80 ∨ mem ≥ 85) → ¬(cpu ≥ 60 ∨ mem ≥ 70) →
      (cpu ≥ 40 ∨ mem ≥ 60) → get_system_status cpu mem = "MONITORING") ∧
    (∀ cpu mem : ℚ, ¬(cpu ≥ 80 ∨ mem ≥ 85) → ¬(cpu ≥ 60 ∨ mem ≥ 70) →
      ¬(cpu ≥ 40 ∨ mem ≥ 60) → get_system_status cpu mem = "NOMINAL") ∧
    get_system_status 80 0 = "CRITICAL" ∧
    get_system_status 85 50 = "CRITICAL" ∧
    get_system_status 65 50 = "DEGRADED" ∧
    get_system_status 45 50 = "MONITORING" ∧
    get_system_status 10 10 = "NOMINAL" := by
  refine ⟨?_, ?_, ?_, ?_, by rfl, by rfl, by rfl, by rfl, by rfl⟩
  · intro cpu mem h
    unfold get_system_status
    rw [if_pos h]
  · intro cpu mem h1 h2
    unfold get_system_status
    rw [if_neg h1, if_pos h2]
  · intro cpu mem h1 h2 h3
    unfold get_system_status
    rw [if_neg h1, if_neg h2, if_pos h3]
  · intro cpu mem h1 h2 h3
    unfold get_system_status
    rw [if_neg h1, if_neg h2, if_neg h3]

/-- Witness for C3: the guarded clauses applied at concrete inputs. -/
theorem c3_status_evaluation_witness :
    get_system_status 95 10 = "CRITICAL" ∧
    get_system_status 61 0 = "DEGRADED" ∧
    get_system_status 41 0 = "MONITORING" ∧
    get_system_status 5 5 = "NOMINAL" :=
  ⟨c3_status_evaluation.1 95 10 (by decide),
   c3_status_evaluation.2.1 61 0 (by decide) (by decide),
   c3_status_evaluation.2.2.1 41 0 (by decide) (by decide) (by decide),
   c3_status_evaluation.2.2.2.1 5 5 (by decide) (by decide) (by decide)⟩

/-- C8: `format_time` maps seconds to zero-padded HH:MM:SS on the spec's
three examples. -/
theorem c8_format_time_examples :
    format_time 3661 = "01:01:01" ∧
    format_time 0 = "00:00:00" ∧
    format_time 86399 = "23:59:59" :=
  ⟨by decide, by decide, by decide⟩

/-- C4 counterexample: on a tick starting from an empty log, the freshly
appended summary line is already part of that same tick's rendered log
block, contradicting the claim that the log is redrawn before the append
so that the tick's own line first appears on the next tick. -/
theorem c4_counterexample :
    renderedLog [] "[12:00:00] CPU 10.0%, MEM 20.0%"
      = ["[12:00:00] CPU 10.0%, MEM 20.0%"] ∧
    "[12:00:00] CPU 10.0%, MEM 20.0%"
      ∈ renderedLog [] "[12:00:00] CPU 10.0%, MEM 20.0%" :=
  ⟨by rfl, by decide⟩

/-- C4 amended: the summary line is appended (with eviction) before the
log block is drawn, so the rendered block is exactly the updated buffer
and the tick's own summary line always appears in it, as the newest
(last) entry. -/
theorem c4_amended_log_order (log : List String) (msg : String) :
    renderedLog log msg = logUpdate log msg ∧
    msg ∈ renderedLog log msg ∧
    (renderedLog log msg).getLast? = some msg := by
  refine ⟨rfl, ?_, ?_⟩
  · simp only [renderedLog, logUpdate]
    split
    · cases log with
      | nil => simp_all [MAX_LOG_LINES]
      | cons a as => simp
    · simp
  · simp only [renderedLog, logUpdate]
    split
    · cases log with
      | nil => simp_all [MAX_LOG_LINES]
      | cons a as => simp
    · simp

/-- C5: the scrolling log is a fixed-capacity FIFO — starting from the
empty buffer its length never exceeds `MAX_LOG_LINES = 4` after any number
of per-tick appends; below capacity an append just appends at the newest
end, and at capacity it additionally evicts exactly the oldest entry,
preserving the order of the remaining ones. -/
theorem c5_scrolling_log_fifo :
    (∀ msgs : List String, (msgs.foldl logUpdate []).length ≤ MAX_LOG_LINES) ∧
    (∀ (log : List String) (msg : String), log.length < MAX_LOG_LINES →
      logUpdate log msg = log ++ [msg]) ∧
    (∀ (log : List String) (msg : String), log.length = MAX_LOG_LINES →
      logUpdate log msg = log.drop 1 ++ [msg]) := by
  refine ⟨fun msgs => foldl_logUpdate_length_le msgs [] (by simp), ?_, ?_⟩
  · intro log msg h
    simp only [logUpdate]
    rw [if_neg]
    simp only [List.length_append, List.length_cons, List.length_nil, not_lt]
    omega
  · intro log msg h
    simp only [logUpdate]
    rw [if_pos]
    · cases log with
      | nil => simp [MAX_LOG_LINES] at h
      | cons a as => simp
    · simp only [List.length_append, List.length_cons, List.length_nil]
      omega

/-- Witness for C5: the two guarded clauses applied at concrete buffers. -/
theorem c5_scrolling_log_fifo_witness :
    logUpdate ["a"] "b" = ["a", "b"] ∧
    logUpdate ["a", "b", "c", "d"] "e" = ["b", "c", "d", "e"] := by
  constructor
  · exact c5_scrolling_log_fifo.2.1 ["a"] "b" (by decide)
  · have h := c5_scrolling_log_fifo.2.2 ["a", "b", "c", "d"] "e" (by decide)
    simpa using h

/-- C7: a transient per-process failure during the enumeration loop is
recovered locally — the failing entry is dropped, every other entry is
built exactly as it would be without the failure, and the loop is total
(no error is propagated). -/
theorem c7_transient_failure_dropped :
    (∀ (pre post : List (Except PsutilErr RawProc)) (e : PsutilErr),
      buildProcesses (pre ++ Except.error e :: post) = buildProcesses (pre ++ post)) ∧
    (∀ l : List RawProc, buildProcesses (l.map Except.ok) = l.map mkEntry) := by
  constructor
  · intro pre post e
    simp [buildProcesses, List.filterMap_append]
  · intro l
    induction l with
    | nil => rfl
    | cons p ps ih => simpa [buildProcesses] using ih

/-- C10: in each built process entry, a missing or empty username is
displayed as `?`, a present username is truncated to at most 8
characters, and the process name is truncated to at most 20 characters. -/
theorem c10_user_and_name_truncation :
    (∀ p : RawProc, (p.username = none ∨ p.username = some []) →
      (mkEntry p).user = ['?']) ∧
    (∀ (p : RawProc) (u : List Char), p.username = some u → u ≠ [] →
      (mkEntry p).user = u.take 8 ∧ (mkEntry p).user.length ≤ 8) ∧
    (∀ p : RawProc, (mkEntry p).name = p.name.take 20 ∧
      (mkEntry p).name.length ≤ 20) := by
  refine ⟨?_, ?_, ?_⟩
  · rintro p (h | h) <;> simp [mkEntry, h]
  · intro p u hu hne
    constructor
    · simp [mkEntry, hu, hne]
    · simp only [mkEntry, hu]
      rw [if_neg hne]
      simp only [List.length_take]
      omega
  · intro p
    constructor
    · rfl
    · simp only [mkEntry, List.length_take]
      omega

/-- Witness for C10: the username clauses applied at the two concrete
enumerated processes. -/
theorem c10_user_and_name_truncation_witness :
    (mkEntry rawNoUser).user = ['?'] ∧
    (mkEntry rawLongUser).user = "longusername".toList.take 8 :=
  ⟨c10_user_and_name_truncation.1 rawNoUser (Or.inl rfl),
   (c10_user_and_name_truncation.2.1 rawLongUser "longusername".toList rfl
      (by decide)).1⟩

/-- C1 counterexample: the code stores no `next_wait`.  With the same
initial stored time and the same per-tick uniform draws (all inside
[MIN_WAIT, MAX_WAIT]), the source's check (a fresh draw compared on every
tick) fires on the second tick while the spec's machine (a `next_wait`
fixed at the last trigger) does not; moreover the code's fire decision at
a single tick changes with the tick's fresh draw even though no glitch
has fired since the stored time was set. -/
theorem c1_counterexample :
    (MIN_WAIT ≤ 6 ∧ (6 : ℚ) ≤ MAX_WAIT ∧ MIN_WAIT ≤ 4 ∧ (4 : ℚ) ≤ MAX_WAIT) ∧
    (codeGlitchRun 0 [(4, 6), (5, 4)]).1 = [false, true] ∧
    (specGlitchRun (0, 6) [(4, 6), (5, 4)]).1 = [false, false] ∧
    (codeGlitchTick 0 5 6).1 = false ∧
    (codeGlitchTick 0 5 4).1 = true := by
  refine ⟨by norm_num [MIN_WAIT, MAX_WAIT], ?_, ?_, ?_, ?_⟩
  · norm_num [codeGlitchRun, codeGlitchTick]
  · norm_num [specGlitchRun, specGlitchTick]
  · norm_num [codeGlitchTick]
  · norm_num [codeGlitchTick]

/-- C1 amended: no `next_wait` is stored between ticks — on every tick a
fresh wait is drawn uniformly from [MIN_WAIT, MAX_WAIT] and the glitch
fires iff the elapsed time since `last_glitch_time` exceeds that tick's
fresh draw; `last_glitch_time` is reset to the current time exactly when
a glitch fires and is unchanged over any run of ticks in which none
fires. -/
theorem c1_amended_schedule :
    (∀ last now d : ℚ, (codeGlitchTick last now d).1 = true ↔ now - last > d) ∧
    (∀ last now d : ℚ,
      (codeGlitchTick last now d).2 = if now - last > d then now else last) ∧
    (∀ (last : ℚ) (ticks : List (ℚ × ℚ)),
      (∀ b ∈ (codeGlitchRun last ticks).1, b = false) →
      (codeGlitchRun last ticks).2 = last) := by
  refine ⟨?_, ?_, ?_⟩
  · intro last now d
    unfold codeGlitchTick
    split <;> simp_all
  · intro last now d
    unfold codeGlitchTick
    split <;> simp_all
  · intro last ticks
    induction ticks generalizing last with
    | nil => intro _; rfl
    | cons t rest ih =>
      obtain ⟨now, d⟩ := t
      intro h
      have h1 : (codeGlitchTick last now d).1 = false :=
        h _ (by simp [codeGlitchRun])
      have h2 : codeGlitchTick last now d = (false, last) := by
        unfold codeGlitchTick at h1 ⊢
        split at h1 <;> simp_all
      have h3 : ∀ b ∈ (codeGlitchRun last rest).1, b = false := by
        intro b hb
        apply h
        simp only [codeGlitchRun, h2, List.mem_cons]
        exact Or.inr hb
      have := ih last h3
      simp only [codeGlitchRun, h2]
      exact this

/-- Witness for C1: a one-tick run with no firing leaves the stored time
unchanged. -/
theorem c1_amended_schedule_witness :
    (codeGlitchRun 0 [((1 : ℚ), 5)]).2 = 0 :=
  c1_amended_schedule.2.2 0 [(1, 5)] (by
    have hlist : (codeGlitchRun 0 [((1 : ℚ), 5)]).1 = [false] := by
      norm_num [codeGlitchRun, codeGlitchTick]
    rw [hlist]
    simp)

/-- C2 counterexample: with the source's default parameters, calling
`glitch_line` on the empty string errors out (`randrange` over the empty
index range) instead of being a no-op. -/
theorem c2_counterexample :
    glitch_line [] (fun _ => 0) MIN_GLITCH_CHARS MAX_GLITCH_CHARS MIN_FRAMES
      MAX_FRAMES = none := by
  rfl

/-- C2 amended: there is no guard for empty text — with the source's
default parameters (minimum one replacement per frame, minimum three
frames) `glitch_line` on empty text always raises, for every random
stream. -/
theorem c2_amended_empty_text_fails (g : Nat → Nat) :
    glitch_line [] g MIN_GLITCH_CHARS MAX_GLITCH_CHARS MIN_FRAMES MAX_FRAMES
      = none := by
  obtain ⟨n, hn⟩ : ∃ n, randint g 0 MIN_FRAMES MAX_FRAMES = n + 1 :=
    ⟨g 0 % 4 + 2, by unfold randint MIN_FRAMES MAX_FRAMES; omega⟩
  obtain ⟨m, hm⟩ : ∃ m, randint g 1 MIN_GLITCH_CHARS MAX_GLITCH_CHARS = m + 1 :=
    ⟨g 1 % 6, by unfold randint MIN_GLITCH_CHARS MAX_GLITCH_CHARS; omega⟩
  simp [glitch_line, hn, glitchFrames, hm, corrupt, randrange]

/-- `ljust` to the buffer's own length is the identity. -/
lemma ljust_self (cs : List Char) : ljust cs cs.length = cs := by
  simp [ljust]

/-- With `minChars = maxChars = 0` every frame is the uncorrupted text and
the stream position advances by one draw (the replacement count) per
frame. -/
lemma glitchFrames_zero_chars (g : Nat → Nat) (text : List Char) :
    ∀ n k : Nat, glitchFrames g text 0 0 n k
      = some (List.replicate n (ljust text text.length), k + n) := by
  intro n
  induction n with
  | zero => intro k; simp [glitchFrames]
  | succ n ih =>
    intro k
    have h0 : randint g k 0 0 = 0 := by unfold randint; omega
    simp only [glitchFrames, h0, corrupt, ih, List.replicate_succ]
    have : k + 1 + n = k + (n + 1) := by omega
    rw [this]

/-- C9: calling the glitch animator with `minChars = maxChars = 0` on a
non-empty text is permitted and draws some positive number of frames, each
identical to the original text (zero characters corrupted). -/
theorem c9_zero_corruption (g : Nat → Nat) (text : List Char)
    (_h : text ≠ []) :
    ∃ fs, glitch_line text g 0 0 MIN_FRAMES MAX_FRAMES = some fs ∧
      fs ≠ [] ∧ ∀ f ∈ fs, f = text := by
  refine ⟨List.replicate (randint g 0 MIN_FRAMES MAX_FRAMES) text, ?_, ?_, ?_⟩
  · simp [glitch_line, glitchFrames_zero_chars, ljust_self]
  · have hne : randint g 0 MIN_FRAMES MAX_FRAMES ≠ 0 := by
      unfold randint MIN_FRAMES MAX_FRAMES; omega
    simp [hne]
  · intro f hf
    exact List.eq_of_mem_replicate hf

/-- Witness for C9: the animator at text `HELLO` with a concrete stream. -/
theorem c9_zero_corruption_witness :
    ∃ fs, glitch_line "HELLO".toList (fun _ => 0) 0 0 MIN_FRAMES MAX_FRAMES
        = some fs ∧ fs ≠ [] ∧ ∀ f ∈ fs, f = "HELLO".toList :=
  c9_zero_corruption (fun _ => 0) "HELLO".toList (by decide)

/-- Inserting is a permutation with consing. -/
lemma insertDesc_perm (p : ProcEntry) (l : List ProcEntry) :
    List.Perm (insertDesc p l) (p :: l) := by
  induction l with
  | nil => rfl
  | cons q qs ih =>
    unfold insertDesc
    split
    · exact (ih.cons q).trans (List.Perm.swap p q qs)
    · rfl

/-- The stable descending sort is a permutation of the input. -/
lemma sortProcs_perm (l : List ProcEntry) : List.Perm (sortProcs l) l := by
  induction l with
  | nil => rfl
  | cons q qs ih =>
    simp only [sortProcs, List.foldr_cons] at ih ⊢
    exact (insertDesc_perm q _).trans (ih.cons q)

/-- Inserting preserves descending order on cpu. -/
lemma pairwise_insertDesc (p : ProcEntry) (l : List ProcEntry)
    (h : l.Pairwise (fun a b => b.cpu ≤ a.cpu)) :
    (insertDesc p l).Pairwise (fun a b => b.cpu ≤ a.cpu) := by
  induction l with
  | nil => simp [insertDesc]
  | cons q qs ih =>
    rw [List.pairwise_cons] at h
    obtain ⟨hq, hqs⟩ := h
    unfold insertDesc
    split
    · rename_i hlt
      rw [List.pairwise_cons]
      refine ⟨?_, ih hqs⟩
      intro x hx
      rcases List.mem_cons.mp ((insertDesc_perm p qs).mem_iff.mp hx) with rfl | hxq
      · exact le_of_lt hlt
      · exact hq x hxq
    · rename_i hge
      rw [not_lt] at hge
      rw [List.pairwise_cons]
      constructor
      · intro x hx
        rcases List.mem_cons.mp hx with rfl | hxqs
        · exact hge
        · exact le_trans (hq x hxqs) hge
      · exact List.pairwise_cons.mpr ⟨hq, hqs⟩

/-- The whole sort is descending on cpu. -/
lemma sortProcs_sorted (l : List ProcEntry) :
    (sortProcs l).Pairwise (fun a b => b.cpu ≤ a.cpu) := by
  induction l with
  | nil => simp [sortProcs]
  | cons q qs ih =>
    simp only [sortProcs, List.foldr_cons] at ih ⊢
    exact pairwise_insertDesc q _ ih

/-- Stability of the insertion: the sublist of entries with any given cpu
value is unchanged by inserting, because the insertion point is past
exactly the entries with strictly larger cpu. -/
lemma filter_insertDesc (c : ℚ) (p : ProcEntry) (l : List ProcEntry) :
    (insertDesc p l).filter (fun q => decide (q.cpu = c)) =
      ((p :: l).filter (fun q => decide (q.cpu = c))) := by
  induction l with
  | nil => rfl
  | cons q qs ih =>
    unfold insertDesc
    split
    · rename_i hlt
      by_cases hp : p.cpu = c
      · have hq : ¬q.cpu = c := by
          intro hqc
          rw [hp] at hlt
          exact absurd hqc (ne_of_gt hlt)
        simp [List.filter_cons, hp, hq, ih]
      · simp [List.filter_cons, hp, ih]
    · rfl

/-- Stability of the whole sort: filtering by any cpu value commutes with
sorting, i.e. equal-cpu entries keep their original enumeration order. -/
lemma filter_sortProcs (l : List ProcEntry) (c : ℚ) :
    (sortProcs l).filter (fun q => decide (q.cpu = c)) =
      l.filter (fun q => decide (q.cpu = c)) := by
  induction l with
  | nil => rfl
  | cons q qs ih =>
    simp only [sortProcs, List.foldr_cons] at ih ⊢
    rw [filter_insertDesc]
    simp only [List.filter_cons, ih]

/-- C6: the rendered process table is at most `TOP_N_PROCS = 25` rows,
taken from the snapshot's processes stably sorted by cpu descending — a
permutation of the input, descending on cpu, with equal-cpu entries in
enumeration order — and on the example with cpu% = [10, 90, 50, 90] the
two 90-cpu entries come first in enumeration order and the 10-cpu entry
last. -/
theorem c6_process_table :
    (∀ l : List ProcEntry, (displayProcs l).length ≤ TOP_N_PROCS) ∧
    (∀ l : List ProcEntry,
      (displayProcs l).Pairwise (fun a b => b.cpu ≤ a.cpu)) ∧
    (∀ l : List ProcEntry, List.Perm (sortProcs l) l) ∧
    (∀ (l : List ProcEntry) (c : ℚ),
      (sortProcs l).filter (fun q => decide (q.cpu = c)) =
        l.filter (fun q => decide (q.cpu = c))) ∧
    (displayProcs exampleProcs).map (fun p => p.pid) = [2, 4, 3, 1] := by
  refine ⟨?_, ?_, sortProcs_perm, filter_sortProcs, by rfl⟩
  · intro l
    simp only [displayProcs]
    exact List.length_take_le TOP_N_PROCS (sortProcs l)
  · intro l
    exact List.Pairwise.sublist (List.take_sublist _ _) (sortProcs_sorted l)

end Glitchtop
